import Mathlib

/-!
Verification of the core parsing and comparison engine of `opatch_diff.py`:
the two inventory decoders (`read_lspatches`, `read_lsinventory`), the
release-update extraction (`check_release_update`, `print_release_update`),
the comparator (`compare_patches`) and the driving control flow
(`prepare_patches`) for two file sources.

Machine text is modelled as `String` / `List String` (the program works on
the result of `splitlines()`, so individual lines contain no newline);
Python dictionaries with their insertion order are modelled as association
lists with a position-preserving insert; `sys.exit` and uncaught exceptions
are modelled with explicit outcome types.
-/

set_option maxHeartbeats 1000000

/-- ASCII whitespace as recognised by Python's `str.strip()` and the regex
class used by the decoders (space, tab, newline, carriage return,
vertical tab, form feed). -/
def isPySpace (c : Char) : Bool :=
  c = ' ' || c = '\t' || c = '\n' || c = '\r' || c = '\x0b' || c = '\x0c'

/-- Strip leading and trailing whitespace from a character list. -/
def stripChars (cs : List Char) : List Char :=
  ((cs.dropWhile isPySpace).reverse.dropWhile isPySpace).reverse

/-- Python `line.strip()`. -/
def pyStrip (s : String) : String := String.mk (stripChars s.data)

/-- Bool-valued list-prefix test used to model Python `str.startswith`. -/
def listPrefixEq : List Char → List Char → Bool
  | [], _ => true
  | _ :: _, [] => false
  | p :: ps, c :: cs => p = c && listPrefixEq ps cs

/-- Python `s.startswith(pre)`. -/
def pyStartswith (s pre : String) : Bool := listPrefixEq pre.data s.data

/-- Numeric value of a decimal digit character. -/
def digitVal (c : Char) : Nat := c.toNat - 48

/-- Continuation of `parseDigitsU`: consume further digits, allowing a single
underscore between two digits (Python's `int` literal grouping rule). -/
def goDigits (acc : Nat) : List Char → Option Nat
  | [] => some acc
  | '_' :: c :: rest => if c.isDigit then goDigits (10 * acc + digitVal c) rest else none
  | ['_'] => none
  | c :: rest => if c.isDigit then goDigits (10 * acc + digitVal c) rest else none

/-- A nonempty digit sequence, underscores permitted only between digits. -/
def parseDigitsU : List Char → Option Nat
  | [] => none
  | c :: rest => if c.isDigit then goDigits (digitVal c) rest else none

/-- Python `int(s)` in base 10 on ASCII text: optional surrounding
whitespace, optional sign, then digits (with underscore grouping);
`none` models the `ValueError` the program turns into a fatal exit. -/
def pyInt (s : String) : Option Int :=
  match stripChars s.data with
  | '+' :: rest => (parseDigitsU rest).map (fun n => (n : Int))
  | '-' :: rest => (parseDigitsU rest).map (fun n => -(n : Int))
  | cs => (parseDigitsU cs).map (fun n => (n : Int))

/-- Python `line.find(';') != -1`. -/
def hasSemi (s : String) : Bool := s.data.any (fun c => c = ';')

/-- Split a character list at its first semicolon (the semicolon is dropped). -/
def splitAtSemi : List Char → List Char × List Char
  | [] => ([], [])
  | c :: rest =>
    if c = ';' then ([], rest)
    else
      let p := splitAtSemi rest
      (c :: p.1, p.2)

/-- Python `line.split(on the first semicolon only)`; meaningful on lines that
contain a semicolon. -/
def splitFirstSemi (s : String) : String × String :=
  let p := splitAtSemi s.data
  (String.mk p.1, String.mk p.2)

/-- One patch record: the (possibly absent) description and the joined
extra lines, exactly the dictionary value built by both decoders. -/
structure PRecord where
  description : Option String
  extra_lines : String
  deriving DecidableEq, Repr

/-- A patch set: identifier-keyed mapping in insertion order (a Python dict). -/
abbrev PatchSet := List (Int × PRecord)

/-- `patches[k] = v` on a Python dict: updating an existing key keeps its
position, a new key is appended at the end. -/
def dinsert (k : Int) (v : PRecord) : PatchSet → PatchSet
  | [] => [(k, v)]
  | kv :: rest => if kv.1 = k then (k, v) :: rest else kv :: dinsert k v rest

/-- `patches.get(k)` on the association-list dict model. -/
def dlookup (k : Int) : PatchSet → Option PRecord
  | [] => none
  | kv :: rest => if kv.1 = k then some kv.2 else dlookup k rest

/-- The loop of `read_lspatches` (src/opatch_diff.py, lines 20-36) with its
accumulated dictionary made explicit; the error value carries the offending
token and the source name that the program prints before `sys.exit(1)`. -/
def read_lspatchesAux (filename : String) (patches : PatchSet) :
    List String → Except (String × String) PatchSet
  | [] => .ok patches
  | line :: rest =>
    let s := pyStrip line
    if s = "" || !hasSemi s then read_lspatchesAux filename patches rest
    else
      let p := splitFirstSemi s
      match pyInt p.1 with
      | some k => read_lspatchesAux filename (dinsert k ⟨some p.2, ""⟩ patches) rest
      | none => .error (p.1, filename)

/-- Format-A decoder `read_lspatches` (src/opatch_diff.py). -/
def read_lspatches (lines : List String) (filename : String) :
    Except (String × String) PatchSet :=
  read_lspatchesAux filename [] lines

/-- Match a literal character sequence at the head, returning the rest. -/
def dropLit : List Char → List Char → Option (List Char)
  | [], cs => some cs
  | p :: ps, c :: cs => if c = p then dropLit ps cs else none
  | _ :: _, [] => none

/-- Regex `\s+`: at least one whitespace character, consumed greedily. -/
def takeSpaces1 (cs : List Char) : Option (List Char) :=
  match cs with
  | c :: rest => if isPySpace c then some (rest.dropWhile isPySpace) else none
  | [] => none

/-- Regex `\d+`: at least one digit, consumed greedily, returned with the rest. -/
def takeDigits1 (cs : List Char) : Option (List Char × List Char) :=
  match cs with
  | c :: _ =>
    if c.isDigit then some (cs.takeWhile Char.isDigit, cs.dropWhile Char.isDigit)
    else none
  | [] => none

/-- Value of a captured digit group, as `int()` computes it. -/
def digitsToNat (ds : List Char) : Nat := ds.foldl (fun a c => 10 * a + digitVal c) 0

/-- The anchored search for the Format-B header pattern
(`Patch`, `\s+`, a captured `\d+`, `\s+`, `:`), returning the captured
identifier. Each greedy class is followed by a token it cannot match, so
greedy matching without backtracking is exact here. -/
def headerNum (line : String) : Option Nat := do
  let cs ← dropLit "Patch".data line.data
  let cs ← takeSpaces1 cs
  let (ds, cs) ← takeDigits1 cs
  let cs ← takeSpaces1 cs
  match cs with
  | ':' :: _ => some (digitsToNat ds)
  | _ => none

/-- Split off everything before the last double quote of the list; `none`
when the list has no double quote. This is the greedy capture of the
pattern fragment quote-dot-star-quote. -/
def lastQuote : List Char → Option (List Char)
  | [] => none
  | c :: cs =>
    match lastQuote cs with
    | some r => some (c :: r)
    | none => if c = '"' then some [] else none

/-- Attempt the description pattern (`Patch`, `\s+`, `description`, `\s*`,
`:`, `\s*`, then a quoted greedy capture) at the start of the list. -/
def descAt (cs : List Char) : Option (List Char) := do
  let cs ← dropLit "Patch".data cs
  let cs ← takeSpaces1 cs
  let cs ← dropLit "description".data cs
  let cs := cs.dropWhile isPySpace
  let cs ← match cs with | ':' :: r => some r | _ => none
  let cs := cs.dropWhile isPySpace
  let cs ← match cs with | '"' :: r => some r | _ => none
  lastQuote cs

/-- The unanchored scan of `re.search`: try the description pattern at every
start position, leftmost match wins. -/
def descSearchChars : List Char → Option (List Char)
  | [] => none
  | c :: cs =>
    match descAt (c :: cs) with
    | some r => some r
    | none => descSearchChars cs

/-- The description-line match of `read_lsinventory`, returning the capture. -/
def descCapture (line : String) : Option String :=
  (descSearchChars line.data).map String.mk

/-- The mutable state of the `read_lsinventory` loop. -/
structure BState where
  patches : PatchSet
  currentId : Option Int
  currentDesc : Option String
  extraLines : List String
  isCapturingExtra : Bool
  deriving DecidableEq, Repr

/-- Python truthiness of `current_id` (`None` and `0` are falsy). -/
def truthyId : Option Int → Bool
  | none => false
  | some n => n != 0

/-- The integer under a truthy `current_id`. -/
def idOf (o : Option Int) : Int := o.getD 0

/-- State at the top of the `read_lsinventory` loop. -/
def initB : BState := ⟨[], none, none, [], false⟩

/-- One iteration of the `read_lsinventory` loop
(src/opatch_diff.py, lines 45-75). -/
def stepB (st : BState) (line : String) : BState :=
  match headerNum line with
  | some n =>
    { patches :=
        if truthyId st.currentId then
          dinsert (idOf st.currentId)
            ⟨st.currentDesc, String.intercalate "\n" st.extraLines⟩ st.patches
        else st.patches,
      currentId := some (Int.ofNat n),
      currentDesc := none,
      extraLines := [],
      isCapturingExtra := false }
  | none =>
    match descCapture line with
    | some d =>
      if truthyId st.currentId then
        { st with currentDesc := some d, isCapturingExtra := true }
      else
        -- no continue was executed, but the capture guard below also needs a
        -- truthy current_id, so the line has no effect
        st
    | none =>
      if st.isCapturingExtra && truthyId st.currentId then
        if pyStrip line != "" then { st with extraLines := st.extraLines ++ [line] }
        else { st with isCapturingExtra := false }
      else st

/-- The end-of-input finalisation of `read_lsinventory`
(src/opatch_diff.py, lines 77-81): note the separator-free join. -/
def finalizeB (st : BState) : PatchSet :=
  if truthyId st.currentId then
    dinsert (idOf st.currentId) ⟨st.currentDesc, String.join st.extraLines⟩ st.patches
  else st.patches

/-- Format-B decoder `read_lsinventory` (src/opatch_diff.py). -/
def read_lsinventory (lines : List String) : PatchSet :=
  finalizeB (lines.foldl stepB initB)

/-- The marker a release-update description starts with. -/
def ruMarker : String := "Database Release Update"

/-- One first-match scan of `check_release_update` / `print_release_update`
over a patch set, in insertion order. The error value models the
`AttributeError` Python raises when a record's description is `None`
(then `None.startswith` is evaluated). -/
def findRU : PatchSet → Except Unit (Option String)
  | [] => .ok none
  | kr :: rest =>
    match kr.2.description with
    | none => .error ()
    | some d => if pyStartswith d ruMarker then .ok (some d) else findRU rest

/-- Python truthiness of an optional string (`None` and `""` are falsy). -/
def truthyStr : Option String → Bool
  | none => false
  | some s => s != ""

/-- What the cross-source release-update check prints. -/
inductive RUOut where
  | warning (ru1 ru2 : String)
  | reportFirst (d : String)
  | silent
  deriving DecidableEq, Repr

/-- `check_release_update` (src/opatch_diff.py, lines 189-207), modelled as
the message it prints. -/
def check_release_update (first second : PatchSet) : Except Unit RUOut :=
  match findRU first with
  | .error e => .error e
  | .ok ru1 =>
    match findRU second with
    | .error e => .error e
    | .ok ru2 =>
      .ok (if truthyStr ru1 && truthyStr ru2 && ru1 != ru2 then
             .warning (ru1.getD "") (ru2.getD "")
           else if truthyStr ru1 then .reportFirst (ru1.getD "")
           else .silent)

/-- What the single-source release-update report prints: nothing at all for
an empty set, else the found description or the explicit not-found line. -/
inductive PrintRU where
  | empty
  | found (d : String)
  | notFound
  deriving DecidableEq, Repr

/-- `print_release_update` (src/opatch_diff.py, lines 209-220). -/
def print_release_update (patches : PatchSet) : Except Unit PrintRU :=
  if patches.isEmpty then .ok .empty
  else
    match findRU patches with
    | .error e => .error e
    | .ok (some d) => .ok (.found d)
    | .ok none => .ok .notFound

/-- Insertion into a sorted list of identifiers. -/
def sortInsert (x : Int) : List Int → List Int
  | [] => [x]
  | y :: ys => if x ≤ y then x :: y :: ys else y :: sortInsert x ys

/-- Python `sorted` on a list of integers. -/
def sortInts (l : List Int) : List Int := l.foldr sortInsert []

/-- `sorted(set(a) - set(b))`: the identifiers of `a` absent from `b`,
in ascending order. -/
def diffSorted (a b : PatchSet) : List Int :=
  sortInts ((a.map Prod.fst).filter (fun k => (dlookup k b).isNone))

/-- The data reported by the comparison stage. -/
structure Report where
  sources1 : String
  sources2 : String
  count1 : Nat
  count2 : Nat
  ruCheck : RUOut
  onlyFirst : List Int
  onlySecond : List Int
  deriving DecidableEq, Repr

/-- `compare_patches` (src/opatch_diff.py, lines 222-261), modelled as the
report data it prints; the error comes from `check_release_update`. -/
def compare_patches (s1 s2 : String) (p1 p2 : PatchSet) : Except Unit Report :=
  match check_release_update p1 p2 with
  | .error e => .error e
  | .ok ru => .ok ⟨s1, s2, p1.length, p2.length, ru, diffSorted p1 p2, diffSorted p2 p1⟩

/-- Format detector `is_lsinventory` (src/opatch_diff.py, lines 92-98). -/
def is_lsinventory (lines : List String) : Bool :=
  lines.any (fun l =>
    pyStartswith l "Oracle Interim Patch Installer" || pyStartswith l "Interim patches")

/-- The externally visible events of a run, in emission order. -/
inductive Ev where
  | noPatchesFound (path : String)
  | parseError (tok fn : String)
  | emptyInputError (fn : String)
  | ruPrinted (out : PrintRU)
  | comparison (rep : Report)
  deriving DecidableEq, Repr

/-- `read_patches` (src/opatch_diff.py, lines 100-113) on the lines of a
file: `inl` is a fatal `sys.exit` with its events and status, `inr` the
decoded patch set. -/
def read_patchesM (lines : List String) (filename : String) :
    Sum (List Ev × Nat) PatchSet :=
  if lines.isEmpty then .inl ([.emptyInputError filename], 1)
  else if is_lsinventory lines then .inr (read_lsinventory lines)
  else
    match read_lspatches lines filename with
    | .ok p => .inr p
    | .error e => .inl ([.parseError e.1 e.2], 1)

/-- `read_opatch_source` (src/opatch_diff.py, lines 115-128) for a file
source: on success also the informational no-patches message, if any. -/
def read_opatch_source (lines : List String) (path : String) :
    Sum (List Ev × Nat) (PatchSet × List Ev) :=
  match read_patchesM lines path with
  | .inl r => .inl r
  | .inr p => .inr (p, if p.isEmpty then [.noPatchesFound path] else [])

/-- A `print_release_update` call as a run event. -/
def printRUEv (p : PatchSet) : Except Unit (List Ev) :=
  match print_release_update p with
  | .error e => .error e
  | .ok o => .ok [.ruPrinted o]

/-- `prepare_patches` (src/opatch_diff.py, lines 262-285) for two file
sources: the emitted events together with the process exit status; the
error value is an uncaught exception. -/
def prepare_patches (fn1 fn2 : String) (lines1 lines2 : List String) (ru : Bool) :
    Except Unit (List Ev × Nat) :=
  match read_opatch_source lines1 fn1 with
  | .inl r => .ok r
  | .inr (p1, ev1) =>
    match (if ru then printRUEv p1 else .ok []) with
    | .error e => .error e
    | .ok ev2 =>
      if p1.isEmpty then .ok (ev1 ++ ev2, 1)
      else
        match read_opatch_source lines2 fn2 with
        | .inl r => .ok (ev1 ++ ev2 ++ r.1, r.2)
        | .inr (p2, ev3) =>
          match (if ru then printRUEv p2 else .ok []) with
          | .error e => .error e
          | .ok ev4 =>
            if p2.isEmpty then .ok (ev1 ++ ev2 ++ ev3 ++ ev4, 1)
            else if ru then .ok (ev1 ++ ev2 ++ ev3 ++ ev4, 0)
            else
              match compare_patches ("file: " ++ fn1) ("file: " ++ fn2) p1 p2 with
              | .error e => .error e
              | .ok rep => .ok (ev1 ++ ev2 ++ ev3 ++ ev4 ++ [.comparison rep], 0)

/-- The offending token of the first Format-A line whose identifier part is
not an integer, if any. -/
def firstBadToken : List String → Option String
  | [] => none
  | line :: rest =>
    let s := pyStrip line
    if s = "" || !hasSemi s then firstBadToken rest
    else
      match pyInt (splitFirstSemi s).1 with
      | some _ => firstBadToken rest
      | none => some (splitFirstSemi s).1

-- sanity checks of the embedding on concrete inputs
example : findRU [(1, ⟨some "Database Release Update 19.21", ""⟩)] =
    .ok (some "Database Release Update 19.21") := rfl
example : findRU [(1, ⟨none, ""⟩)] = .error () := rfl
example : check_release_update [] [(1, ⟨some "Database Release Update 19.21", ""⟩)] =
    .ok .silent := rfl
example : check_release_update [(1, ⟨some "Database Release Update A", ""⟩)]
    [(1, ⟨some "Database Release Update B", ""⟩)] =
    .ok (.warning "Database Release Update A" "Database Release Update B") := rfl
example : print_release_update [] = .ok .empty := rfl
example : print_release_update [(1, ⟨some "x", ""⟩)] = .ok .notFound := rfl
example : diffSorted [(5, ⟨some "a", ""⟩), (3, ⟨some "b", ""⟩)] [(3, ⟨some "c", ""⟩)] = [5] := rfl
example : prepare_patches "a" "b" ["hello"] ["1;x"] false =
    .ok ([.noPatchesFound "a"], 1) := rfl
example : prepare_patches "a" "b" ["1;x"] ["1;x", "2;y"] false =
    .ok ([.comparison ⟨"file: a", "file: b", 1, 2, .silent, [], [2]⟩], 0) := rfl
example : firstBadToken ["abc;Bad ID"] = some "abc" := rfl

example : headerNum "Patch 123 :" = some 123 := by decide
example : headerNum "Patch 123:" = none := by decide
example : headerNum "Patch abc :" = none := by decide
example : descCapture "Patch description : \"Security Patch\"" = some "Security Patch" := by decide
example : descCapture "  Patch  description:\"a\"b\"c\"rest" = some "a\"b\"c" := by decide
example : descCapture "Patch description : \"no close" = none := by decide
example : pyInt "  123 " = some 123 := by decide
example : pyInt "abc" = none := by decide
example : pyInt "-4" = some (-4) := by decide
example : pyInt "1_0" = some 10 := by decide
example : pyInt "1__0" = none := by decide
example : read_lspatches ["1;Desc A", "2;Desc B"] "f" =
    .ok [(1, ⟨some "Desc A", ""⟩), (2, ⟨some "Desc B", ""⟩)] := rfl
example : read_lspatches ["abc;Bad ID"] "f" = .error ("abc", "f") := rfl
example : read_lsinventory
    ["Patch 101 :", "Patch description : \"Security Patch\"", "  some detail line", "",
     "Patch 202 :", "Patch description : \"Database Release Update 19.21\""] =
    [(101, ⟨some "Security Patch", "  some detail line"⟩),
     (202, ⟨some "Database Release Update 19.21", ""⟩)] := by decide

/-! ## Dictionary lemmas -/

lemma dlookup_dinsert_self (m : PatchSet) (k : Int) (v : PRecord) :
    dlookup k (dinsert k v m) = some v := by
  induction m with
  | nil => simp [dinsert, dlookup]
  | cons kv rest ih =>
    by_cases h : kv.1 = k
    · simp [dinsert, h, dlookup]
    · simp [dinsert, h, dlookup, ih]

lemma dlookup_dinsert_ne (m : PatchSet) (k k2 : Int) (v : PRecord) (h : k2 ≠ k) :
    dlookup k (dinsert k2 v m) = dlookup k m := by
  induction m with
  | nil => simp [dinsert, dlookup, h]
  | cons kv rest ih =>
    by_cases h2 : kv.1 = k2
    · simp [dinsert, h2, dlookup, h, h2 ▸ h]
    · by_cases h3 : kv.1 = k
      · simp [dinsert, h2, dlookup, h3, Ne.symm h]
      · simp [dinsert, h2, dlookup, h3, ih]

lemma dlookup_dinsert_or (m : PatchSet) (k k2 : Int) (v r : PRecord)
    (h : dlookup k (dinsert k2 v m) = some r) : r = v ∨ dlookup k m = some r := by
  by_cases he : k2 = k
  · subst he
    rw [dlookup_dinsert_self] at h
    exact Or.inl (Option.some.inj h).symm
  · rw [dlookup_dinsert_ne _ _ _ _ he] at h
    exact Or.inr h

lemma keys_dinsert (k : Int) (v : PRecord) (m : PatchSet) :
    (dinsert k v m).map Prod.fst =
      if k ∈ m.map Prod.fst then m.map Prod.fst else m.map Prod.fst ++ [k] := by
  induction m with
  | nil => simp [dinsert]
  | cons kv rest ih =>
    by_cases h : kv.1 = k
    · simp [dinsert, h]
    · have hne : ¬(k = kv.1) := fun hk => h hk.symm
      by_cases hm : k ∈ rest.map Prod.fst
      · simp [dinsert, h, ih, hm, hne]
      · simp [dinsert, h, ih, hm, hne]

lemma nodup_keys_dinsert (k : Int) (v : PRecord) (m : PatchSet)
    (h : (m.map Prod.fst).Nodup) : ((dinsert k v m).map Prod.fst).Nodup := by
  rw [keys_dinsert]
  by_cases hm : k ∈ m.map Prod.fst
  · simpa [hm] using h
  · simp [hm, List.nodup_append, h]

/-! ## Format-B state-machine lemmas -/

lemma truthy_idOf_ne_zero (o : Option Int) (h : truthyId o = true) : idOf o ≠ 0 := by
  cases o with
  | none => simp [truthyId] at h
  | some n =>
    simp only [truthyId, bne_iff_ne, ne_eq, decide_eq_true_eq] at h
    simpa [idOf] using h

lemma stepB_patches_cases (st : BState) (line : String) :
    (stepB st line).patches = st.patches ∨
      (truthyId st.currentId = true ∧
        (stepB st line).patches =
          dinsert (idOf st.currentId)
            ⟨st.currentDesc, String.intercalate "\n" st.extraLines⟩ st.patches) := by
  unfold stepB
  cases hh : headerNum line with
  | some n =>
    by_cases ht : truthyId st.currentId = true
    · exact Or.inr ⟨ht, by simp [ht]⟩
    · simp only [Bool.not_eq_true] at ht
      exact Or.inl (by simp [ht])
  | none =>
    cases hd : descCapture line with
    | some d =>
      by_cases ht : truthyId st.currentId = true <;> simp [ht]
    | none =>
      by_cases hc : (st.isCapturingExtra && truthyId st.currentId) = true
      · by_cases hs : (pyStrip line != "") = true <;> simp [hc, hs]
      · simp only [Bool.not_eq_true] at hc
        exact Or.inl (by simp [hc])

lemma foldB_zero_free (lines : List String) :
    ∀ st : BState, dlookup 0 st.patches = none →
      dlookup 0 (List.foldl stepB st lines).patches = none := by
  induction lines with
  | nil => intro st h; simpa using h
  | cons line rest ih =>
    intro st h
    rw [List.foldl_cons]
    apply ih
    rcases stepB_patches_cases st line with hc | ⟨ht, hc⟩
    · rw [hc]; exact h
    · rw [hc, dlookup_dinsert_ne _ _ _ _ (truthy_idOf_ne_zero _ ht)]; exact h

lemma read_lsinventory_zero_free (lines : List String) :
    dlookup 0 (read_lsinventory lines) = none := by
  unfold read_lsinventory finalizeB
  have h := foldB_zero_free lines initB (by rfl)
  by_cases ht : truthyId (List.foldl stepB initB lines).currentId = true
  · rw [if_pos (by simpa using ht), dlookup_dinsert_ne _ _ _ _ (truthy_idOf_ne_zero _ ht)]
    exact h
  · simp only [Bool.not_eq_true] at ht
    rw [if_neg (by simp [ht])]
    exact h

lemma foldB_nodup (lines : List String) :
    ∀ st : BState, (st.patches.map Prod.fst).Nodup →
      ((List.foldl stepB st lines).patches.map Prod.fst).Nodup := by
  induction lines with
  | nil => intro st h; simpa using h
  | cons line rest ih =>
    intro st h
    rw [List.foldl_cons]
    apply ih
    rcases stepB_patches_cases st line with hc | ⟨_, hc⟩
    · rw [hc]; exact h
    · rw [hc]; exact nodup_keys_dinsert _ _ _ h

lemma read_lsinventory_nodup (lines : List String) :
    ((read_lsinventory lines).map Prod.fst).Nodup := by
  unfold read_lsinventory finalizeB
  have h := foldB_nodup lines initB (by simp [initB])
  by_cases ht : truthyId (List.foldl stepB initB lines).currentId = true
  · rw [if_pos (by simpa using ht)]
    exact nodup_keys_dinsert _ _ _ h
  · simp only [Bool.not_eq_true] at ht
    rw [if_neg (by simp [ht])]
    exact h

/-! ## Format-A lemmas -/

lemma read_lspatchesAux_nil (fn : String) (acc : PatchSet) :
    read_lspatchesAux fn acc [] = .ok acc := rfl

lemma read_lspatchesAux_skip (fn : String) (acc : PatchSet) (line : String)
    (rest : List String) (h : pyStrip line = "" ∨ hasSemi (pyStrip line) = false) :
    read_lspatchesAux fn acc (line :: rest) = read_lspatchesAux fn acc rest := by
  rcases h with h | h
  · simp [read_lspatchesAux, h]
  · simp [read_lspatchesAux, h]

lemma hasSemi_ne_empty {s : String} (h : hasSemi s = true) : ¬(s = "") := by
  intro he
  subst he
  simp [hasSemi] at h

lemma read_lspatchesAux_take (fn : String) (acc : PatchSet) (line : String)
    (rest : List String) (k : Int) (h : hasSemi (pyStrip line) = true)
    (hk : pyInt (splitFirstSemi (pyStrip line)).1 = some k) :
    read_lspatchesAux fn acc (line :: rest) =
      read_lspatchesAux fn
        (dinsert k ⟨some (splitFirstSemi (pyStrip line)).2, ""⟩ acc) rest := by
  simp [read_lspatchesAux, h, hasSemi_ne_empty h, hk]

lemma read_lspatchesAux_bad (fn : String) (line : String)
    (rest : List String) (acc : PatchSet) (h : hasSemi (pyStrip line) = true)
    (hk : pyInt (splitFirstSemi (pyStrip line)).1 = none) :
    read_lspatchesAux fn acc (line :: rest) =
      .error ((splitFirstSemi (pyStrip line)).1, fn) := by
  simp [read_lspatchesAux, h, hasSemi_ne_empty h, hk]

lemma read_lspatchesAux_firstBad (fn : String) :
    ∀ (lines : List String) (acc : PatchSet) (tok : String),
      firstBadToken lines = some tok →
      read_lspatchesAux fn acc lines = .error (tok, fn) := by
  intro lines
  induction lines with
  | nil => intro acc tok h; simp [firstBadToken] at h
  | cons line rest ih =>
    intro acc tok h
    by_cases hc : pyStrip line = ""
    · rw [read_lspatchesAux_skip fn acc line rest (Or.inl hc)]
      apply ih
      simpa [firstBadToken, hc] using h
    · by_cases hs : hasSemi (pyStrip line) = true
      · cases hk : pyInt (splitFirstSemi (pyStrip line)).1 with
        | some k =>
          rw [read_lspatchesAux_take fn acc line rest k hs hk]
          apply ih
          simpa [firstBadToken, hc, hs, hk] using h
        | none =>
          rw [read_lspatchesAux_bad fn line rest acc hs hk]
          have : (splitFirstSemi (pyStrip line)).1 = tok := by
            simpa [firstBadToken, hc, hs, hk] using h
          rw [this]
      · simp only [Bool.not_eq_true] at hs
        rw [read_lspatchesAux_skip fn acc line rest (Or.inr hs)]
        apply ih
        simpa [firstBadToken, hc, hs] using h

lemma read_lspatchesAux_extra (fn : String) :
    ∀ (lines : List String) (acc m : PatchSet),
      (∀ k r, dlookup k acc = some r → r.extra_lines = "") →
      read_lspatchesAux fn acc lines = .ok m →
      ∀ k r, dlookup k m = some r → r.extra_lines = "" := by
  intro lines
  induction lines with
  | nil =>
    intro acc m hacc h
    rw [read_lspatchesAux_nil] at h
    cases h
    exact hacc
  | cons line rest ih =>
    intro acc m hacc h
    by_cases hc : pyStrip line = ""
    · rw [read_lspatchesAux_skip fn acc line rest (Or.inl hc)] at h
      exact ih acc m hacc h
    · by_cases hs : hasSemi (pyStrip line) = true
      · cases hk : pyInt (splitFirstSemi (pyStrip line)).1 with
        | some k2 =>
          rw [read_lspatchesAux_take fn acc line rest k2 hs hk] at h
          refine ih _ m ?_ h
          intro k r hr
          rcases dlookup_dinsert_or _ _ _ _ _ hr with hv | hv
          · rw [hv]
          · exact hacc k r hv
        | none =>
          rw [read_lspatchesAux_bad fn line rest acc hs hk] at h
          cases h
      · simp only [Bool.not_eq_true] at hs
        rw [read_lspatchesAux_skip fn acc line rest (Or.inr hs)] at h
        exact ih acc m hacc h

lemma read_lspatchesAux_nodup (fn : String) :
    ∀ (lines : List String) (acc m : PatchSet),
      (acc.map Prod.fst).Nodup →
      read_lspatchesAux fn acc lines = .ok m →
      (m.map Prod.fst).Nodup := by
  intro lines
  induction lines with
  | nil =>
    intro acc m hacc h
    rw [read_lspatchesAux_nil] at h
    cases h
    exact hacc
  | cons line rest ih =>
    intro acc m hacc h
    by_cases hc : pyStrip line = ""
    · rw [read_lspatchesAux_skip fn acc line rest (Or.inl hc)] at h
      exact ih acc m hacc h
    · by_cases hs : hasSemi (pyStrip line) = true
      · cases hk : pyInt (splitFirstSemi (pyStrip line)).1 with
        | some k2 =>
          rw [read_lspatchesAux_take fn acc line rest k2 hs hk] at h
          exact ih _ m (nodup_keys_dinsert _ _ _ hacc) h
        | none =>
          rw [read_lspatchesAux_bad fn line rest acc hs hk] at h
          cases h
      · simp only [Bool.not_eq_true] at hs
        rw [read_lspatchesAux_skip fn acc line rest (Or.inr hs)] at h
        exact ih acc m hacc h

lemma splitAtSemi_append (b : List Char) :
    ∀ a : List Char, (∀ c ∈ a, ¬(c = ';')) →
      splitAtSemi (a ++ ';' :: b) = (a, b) := by
  intro a
  induction a with
  | nil => intro _; simp [splitAtSemi]
  | cons c cs ih =>
    intro h
    have hc : ¬(c = ';') := h c (by simp)
    have hrest : ∀ x ∈ cs, ¬(x = ';') := fun x hx => h x (by simp [hx])
    simp [splitAtSemi, hc, ih hrest]

/-! ## Release-update lemmas -/

lemma findRU_startswith :
    ∀ {p : PatchSet} {d : String}, findRU p = .ok (some d) →
      pyStartswith d ruMarker = true := by
  intro p
  induction p with
  | nil => intro d h; simp [findRU] at h
  | cons kr rest ih =>
    intro d h
    cases hd : kr.2.description with
    | none => simp [findRU, hd] at h
    | some d2 =>
      by_cases hs : pyStartswith d2 ruMarker = true
      · simp [findRU, hd, hs] at h
        rw [h.symm]
        exact hs
      · simp [findRU, hd, hs] at h
        exact ih h

lemma findRU_bne_empty {p : PatchSet} {d : String} (h : findRU p = .ok (some d)) :
    (d != "") = true := by
  have hs := findRU_startswith h
  rcases d with ⟨cs⟩
  cases cs with
  | nil => exact absurd hs (by decide)
  | cons c cs =>
    simp only [bne_iff_ne, ne_eq]
    intro he
    have : (c :: cs : List Char) = [] := congrArg String.data he
    cases this

lemma findRU_all_miss :
    ∀ p : PatchSet,
      (∀ kr ∈ p, ∃ d, kr.2.description = some d ∧ pyStartswith d ruMarker = false) →
      findRU p = .ok none := by
  intro p
  induction p with
  | nil => intro _; rfl
  | cons kr rest ih =>
    intro h
    obtain ⟨d, hd, hm⟩ := h kr (by simp)
    have hrest := ih (fun x hx => h x (by simp [hx]))
    simp [findRU, hd, hm, hrest]

/-! ## Claim theorems -/

/-- C9: every Patch Set produced by either decoder maps each identifier to
exactly one record (the key lists of both decoders' outputs have no
duplicates), dictionary insertion is last-write-wins, and on duplicate
identifiers in the source text the later record overwrites the earlier one
in both Format-A and Format-B (shown on representative inputs). -/
theorem c9_unique_keys_last_write_wins :
    (∀ (lines : List String) (fn : String) (m : PatchSet),
        read_lspatches lines fn = .ok m → (m.map Prod.fst).Nodup) ∧
    (∀ lines : List String, ((read_lsinventory lines).map Prod.fst).Nodup) ∧
    (∀ (m : PatchSet) (k : Int) (v : PRecord), dlookup k (dinsert k v m) = some v) ∧
    read_lspatches ["7;first", "7;second"] "f" = .ok [(7, ⟨some "second", ""⟩)] ∧
    read_lsinventory ["Patch 7 :", "Patch description : \"first\"",
                      "Patch 7 :", "Patch description : \"second\""] =
      [(7, ⟨some "second", ""⟩)] := by
  refine ⟨?_, read_lsinventory_nodup, ?_, rfl, rfl⟩
  · intro lines fn m h
    exact read_lspatchesAux_nodup fn lines [] m (by simp) h
  · intro m k v
    exact dlookup_dinsert_self m k v

/-- C9 witness: the universally quantified parts of the theorem evaluated at
concrete inputs. -/
theorem c9_witness :
    ((([(7, ⟨some "second", ""⟩)] : PatchSet)).map Prod.fst).Nodup ∧
    dlookup 3 (dinsert 3 ⟨some "x", ""⟩ [(3, ⟨some "w", ""⟩)]) = some ⟨some "x", ""⟩ := by
  constructor
  · exact c9_unique_keys_last_write_wins.1 ["7;first", "7;second"] "f"
      [(7, ⟨some "second", ""⟩)] rfl
  · exact c9_unique_keys_last_write_wins.2.2.1 [(3, ⟨some "w", ""⟩)] 3 ⟨some "x", ""⟩

/-- C10: a Format-B record opened by a header with identifier 0 is never
inserted into the output: no decoded Patch Set contains key 0; a subsequent
header does not finalize a record open under id 0, end-of-input does not
finalize it either, and description lines seen while it is open are
ignored (the Python `if current_id:` truthiness test rejects 0). -/
theorem c10_zero_identifier (st : BState) (line : String) :
    (∀ lines : List String, dlookup 0 (read_lsinventory lines) = none) ∧
    (∀ n : Nat, st.currentId = some 0 → headerNum line = some n →
      (stepB st line).patches = st.patches) ∧
    (st.currentId = some 0 → finalizeB st = st.patches) ∧
    (∀ d : String, st.currentId = some 0 → headerNum line = none →
      descCapture line = some d → stepB st line = st) := by
  refine ⟨read_lsinventory_zero_free, ?_, ?_, ?_⟩
  · intro n h0 hh
    simp [stepB, hh, h0, truthyId]
  · intro h0
    simp [finalizeB, h0, truthyId]
  · intro d h0 hh hd
    simp [stepB, hh, hd, h0, truthyId]

/-- C10 witness: the theorem applied to the state right after a `Patch 0 :`
header and to concrete following lines. -/
theorem c10_witness :
    dlookup 0 (read_lsinventory
      ["Patch 0 :", "Patch description : \"Zero\"", "Patch 5 :"]) = none ∧
    (stepB ⟨[], some 0, none, [], false⟩ "Patch 5 :").patches = [] ∧
    finalizeB ⟨[], some 0, none, [], false⟩ = [] ∧
    stepB ⟨[], some 0, none, [], false⟩ "Patch description : \"Zero\"" =
      ⟨[], some 0, none, [], false⟩ := by
  refine ⟨(c10_zero_identifier initB "").1 _,
          (c10_zero_identifier ⟨[], some 0, none, [], false⟩ "Patch 5 :").2.1 5 rfl rfl,
          (c10_zero_identifier ⟨[], some 0, none, [], false⟩ "").2.2.1 rfl,
          (c10_zero_identifier ⟨[], some 0, none, [], false⟩
            "Patch description : \"Zero\"").2.2.2 "Zero" rfl rfl rfl⟩

lemma stepB_capturing_truthy (st : BState) (line : String)
    (h : st.isCapturingExtra = true → truthyId st.currentId = true) :
    (stepB st line).isCapturingExtra = true →
      truthyId (stepB st line).currentId = true := by
  unfold stepB
  cases hh : headerNum line with
  | some n => intro hc; simp at hc
  | none =>
    cases hd : descCapture line with
    | some d =>
      by_cases ht : truthyId st.currentId = true
      · simp [ht]
      · simpa [ht] using h
    | none =>
      by_cases hc : (st.isCapturingExtra && truthyId st.currentId) = true
      · by_cases hs : (pyStrip line != "") = true
        · simpa [hc, hs] using h
        · simp [hc, hs]
      · simpa [hc] using h

lemma foldB_capturing_truthy (lines : List String) :
    ∀ st : BState, (st.isCapturingExtra = true → truthyId st.currentId = true) →
      (List.foldl stepB st lines).isCapturingExtra = true →
        truthyId (List.foldl stepB st lines).currentId = true := by
  induction lines with
  | nil => intro st h; simpa using h
  | cons line rest ih =>
    intro st h
    rw [List.foldl_cons]
    exact ih _ (stepB_capturing_truthy st line h)

/-- C4: in the Format-B decoder, while an open record is capturing extra
lines, a line that is neither a header nor a description match is appended
untrimmed to the record's buffer when nonblank after trimming; a blank line
only clears the capturing flag, leaving the whole open record (identifier,
description, buffer) untouched; a header line always force-closes the open
record, inserting it into the patch set; and along any run of the decoder a
capturing state always has an open (truthy) record, so the first two
hypotheses describe exactly the reachable capturing states. -/
theorem c4_capture_transitions (st : BState) (line : String) :
    (st.isCapturingExtra = true → truthyId st.currentId = true →
      headerNum line = none → descCapture line = none → ¬(pyStrip line = "") →
      stepB st line = { st with extraLines := st.extraLines ++ [line] }) ∧
    (st.isCapturingExtra = true → truthyId st.currentId = true →
      headerNum line = none → descCapture line = none → pyStrip line = "" →
      stepB st line = { st with isCapturingExtra := false }) ∧
    (∀ n : Nat, headerNum line = some n → truthyId st.currentId = true →
      stepB st line =
        ⟨dinsert (idOf st.currentId)
            ⟨st.currentDesc, String.intercalate "\n" st.extraLines⟩ st.patches,
         some (Int.ofNat n), none, [], false⟩) ∧
    (∀ lines : List String, (List.foldl stepB initB lines).isCapturingExtra = true →
      truthyId (List.foldl stepB initB lines).currentId = true) := by
  refine ⟨?_, ?_, ?_, ?_⟩
  · intro hc ht hh hd hs
    simp [stepB, hh, hd, hc, ht, bne_iff_ne, hs]
  · intro hc ht hh hd hs
    simp [stepB, hh, hd, hc, ht, bne_iff_ne, hs]
  · intro n hh ht
    simp [stepB, hh, ht]
  · intro lines
    exact foldB_capturing_truthy lines initB (by simp [initB])

/-- C4 witness: the three transitions evaluated on a concrete capturing
state and concrete lines. -/
theorem c4_witness :
    stepB ⟨[], some 5, some "D", ["x"], true⟩ "  more detail" =
      ⟨[], some 5, some "D", ["x", "  more detail"], true⟩ ∧
    stepB ⟨[], some 5, some "D", ["x"], true⟩ "   " =
      ⟨[], some 5, some "D", ["x"], false⟩ ∧
    stepB ⟨[], some 5, some "D", ["x"], true⟩ "Patch 6 :" =
      ⟨dinsert (idOf (some 5)) ⟨some "D", String.intercalate "\n" ["x"]⟩ [],
       some (Int.ofNat 6), none, [], false⟩ := by
  refine ⟨?_, ?_, ?_⟩
  · exact (c4_capture_transitions ⟨[], some 5, some "D", ["x"], true⟩
      "  more detail").1 rfl rfl rfl rfl (by decide)
  · exact (c4_capture_transitions ⟨[], some 5, some "D", ["x"], true⟩
      "   ").2.1 rfl rfl rfl rfl (by decide)
  · exact (c4_capture_transitions ⟨[], some 5, some "D", ["x"], true⟩
      "Patch 6 :").2.2.1 6 rfl rfl

/-- C5: a Format-B record finalized mid-stream by a subsequent header has
its extra lines joined with newline separators, while the record finalized
at end-of-input has them concatenated with no separator; both shown in
general over the loop state and together on one concrete input where the
two joins visibly differ. -/
theorem c5_join_asymmetry (st : BState) (line : String) :
    (∀ n : Nat, headerNum line = some n → truthyId st.currentId = true →
      (stepB st line).patches =
        dinsert (idOf st.currentId)
          ⟨st.currentDesc, String.intercalate "\n" st.extraLines⟩ st.patches) ∧
    (truthyId st.currentId = true →
      finalizeB st =
        dinsert (idOf st.currentId)
          ⟨st.currentDesc, String.join st.extraLines⟩ st.patches) ∧
    read_lsinventory
        ["Patch 1 :", "Patch description : \"D1\"", "x", "y",
         "Patch 2 :", "Patch description : \"D2\"", "u", "v"] =
      [(1, ⟨some "D1", "x\ny"⟩), (2, ⟨some "D2", "uv"⟩)] := by
  refine ⟨?_, ?_, rfl⟩
  · intro n hh ht
    simp [stepB, hh, ht]
  · intro ht
    simp [finalizeB, ht]

/-- C5 witness: both join policies evaluated on one concrete open record
with two stored extra lines. -/
theorem c5_witness :
    (stepB ⟨[], some 3, some "E", ["p", "q"], false⟩ "Patch 4 :").patches =
      dinsert (idOf (some 3)) ⟨some "E", String.intercalate "\n" ["p", "q"]⟩ [] ∧
    finalizeB ⟨[], some 3, some "E", ["p", "q"], false⟩ =
      dinsert (idOf (some 3)) ⟨some "E", String.join ["p", "q"]⟩ [] ∧
    String.intercalate "\n" ["p", "q"] = "p\nq" ∧ String.join ["p", "q"] = "pq" :=
  ⟨(c5_join_asymmetry ⟨[], some 3, some "E", ["p", "q"], false⟩ "Patch 4 :").1 4 rfl rfl,
   (c5_join_asymmetry ⟨[], some 3, some "E", ["p", "q"], false⟩ "").2.1 rfl,
   rfl, rfl⟩

/-- C6: a Format-A line that is empty after trimming or has no semicolon is
skipped without error; any other line is split at its first semicolon only
(the remainder, which may itself contain semicolons, becomes the verbatim
description) with the left part parsed as the integer identifier; and every
record of a successfully decoded Format-A set has empty extra lines. -/
theorem c6_format_a_lines (fn : String) (acc : PatchSet) (line : String)
    (rest : List String) :
    (pyStrip line = "" ∨ hasSemi (pyStrip line) = false →
      read_lspatchesAux fn acc (line :: rest) = read_lspatchesAux fn acc rest) ∧
    (∀ k : Int, hasSemi (pyStrip line) = true →
      pyInt (splitFirstSemi (pyStrip line)).1 = some k →
      read_lspatchesAux fn acc (line :: rest) =
        read_lspatchesAux fn
          (dinsert k ⟨some (splitFirstSemi (pyStrip line)).2, ""⟩ acc) rest) ∧
    (∀ a b : String, hasSemi a = false →
      splitFirstSemi (a ++ ";" ++ b) = (a, b)) ∧
    (∀ (lines : List String) (m : PatchSet) (k : Int) (r : PRecord),
      read_lspatches lines fn = .ok m → dlookup k m = some r →
      r.extra_lines = "") := by
  refine ⟨read_lspatchesAux_skip fn acc line rest,
          fun k h hk => read_lspatchesAux_take fn acc line rest k h hk, ?_, ?_⟩
  · intro a b h
    have hmem : ∀ c ∈ a.data, ¬(c = ';') := by
      intro c hc hc2
      rw [hasSemi, List.any_eq_false] at h
      exact h c hc (by simp [hc2])
    unfold splitFirstSemi
    have hd : (a ++ ";" ++ b).data = a.data ++ ';' :: b.data := by
      rw [String.data_append, String.data_append, List.append_assoc]
      rfl
    rw [hd, splitAtSemi_append b.data a.data hmem]
  · intro lines m k r h hr
    refine read_lspatchesAux_extra fn lines [] m ?_ h k r hr
    intro k2 r2 hr2
    simp [dlookup] at hr2

/-- C6 witness: the three line behaviours and the empty-extra-lines
invariant evaluated on concrete lines. -/
theorem c6_witness :
    read_lspatchesAux "f" [] ["  ", "34;OJVM;x"] =
      read_lspatchesAux "f" [] ["34;OJVM;x"] ∧
    read_lspatchesAux "f" [] ["34;OJVM;x"] =
      read_lspatchesAux "f"
        (dinsert 34 ⟨some (splitFirstSemi (pyStrip "34;OJVM;x")).2, ""⟩ []) [] ∧
    splitFirstSemi ("34" ++ ";" ++ "OJVM;x") = ("34", "OJVM;x") ∧
    (⟨some "OJVM;x", ""⟩ : PRecord).extra_lines = "" := by
  refine ⟨(c6_format_a_lines "f" [] "  " ["34;OJVM;x"]).1 (Or.inl rfl),
          (c6_format_a_lines "f" [] "34;OJVM;x" []).2.1 34 rfl rfl,
          (c6_format_a_lines "f" [] "" []).2.2.1 "34" "OJVM;x" rfl,
          (c6_format_a_lines "f" [] "" []).2.2.2 ["34;OJVM;x"]
            [(34, ⟨some "OJVM;x", ""⟩)] 34 ⟨some "OJVM;x", ""⟩ rfl rfl⟩

/-- C7: a Format-A source containing a line whose part left of the first
semicolon is not parseable as an integer makes decoding fatal: the decoder
returns the error carrying the offending token and the source name (no
partial Patch Set is produced), and the whole run exits with status 1
reporting exactly that parse error, before any comparison happens. -/
theorem c7_malformed_id_fatal (lines : List String) (fn : String) (tok : String)
    (h : firstBadToken lines = some tok) :
    read_lspatches lines fn = .error (tok, fn) ∧
    (∀ (fn2 : String) (lines2 : List String) (ru : Bool),
      is_lsinventory lines = false →
      prepare_patches fn fn2 lines lines2 ru = .ok ([Ev.parseError tok fn], 1)) := by
  have he := read_lspatchesAux_firstBad fn lines [] tok h
  refine ⟨he, ?_⟩
  intro fn2 lines2 ru hinv
  have hne : lines.isEmpty = false := by
    cases lines with
    | nil => simp [firstBadToken] at h
    | cons l ls => rfl
  have hrm : read_patchesM lines fn = .inl ([Ev.parseError tok fn], 1) := by
    simp [read_patchesM, read_lspatches, hne, hinv, he]
  simp [prepare_patches, read_opatch_source, hrm]

/-- C7 witness: the spec's own test vector, the malformed line abc-semicolon-Bad ID. -/
theorem c7_witness :
    read_lspatches ["abc;Bad ID"] "f" = .error ("abc", "f") ∧
    prepare_patches "f" "g" ["abc;Bad ID"] ["1;x"] false =
      .ok ([Ev.parseError "abc" "f"], 1) :=
  ⟨(c7_malformed_id_fatal ["abc;Bad ID"] "f" "abc" rfl).1,
   (c7_malformed_id_fatal ["abc;Bad ID"] "f" "abc" rfl).2 "g" ["1;x"] false rfl⟩

lemma check_release_update_ok_iff (p1 p2 : PatchSet) :
    (∃ ru, check_release_update p1 p2 = .ok ru) ↔
      ((∃ a, findRU p1 = .ok a) ∧ (∃ b, findRU p2 = .ok b)) := by
  unfold check_release_update
  cases h1 : findRU p1 <;> cases h2 : findRU p2 <;> simp [h1, h2]

/-- C8: the identifiers the comparator reports as present only in the first
source when comparing (A,B) are exactly those it reports as present only in
the second source when comparing (B,A), whatever the source labels. -/
theorem c8_compare_symmetry (s1 s2 t1 t2 : String) (p1 p2 : PatchSet) (r1 : Report)
    (h : compare_patches s1 s2 p1 p2 = .ok r1) :
    ∃ r2 : Report, compare_patches t1 t2 p2 p1 = .ok r2 ∧
      r1.onlyFirst = r2.onlySecond := by
  obtain ⟨ru, hru⟩ : ∃ ru, check_release_update p1 p2 = .ok ru := by
    cases hc : check_release_update p1 p2 with
    | error e =>
      unfold compare_patches at h
      rw [hc] at h
      exact absurd h (by simp)
    | ok ru => exact ⟨ru, rfl⟩
  obtain ⟨ru2, hru2⟩ : ∃ ru2, check_release_update p2 p1 = .ok ru2 := by
    have h12 := (check_release_update_ok_iff p1 p2).mp ⟨ru, hru⟩
    exact (check_release_update_ok_iff p2 p1).mpr ⟨h12.2, h12.1⟩
  have hr1 : (⟨s1, s2, p1.length, p2.length, ru,
      diffSorted p1 p2, diffSorted p2 p1⟩ : Report) = r1 := by
    unfold compare_patches at h
    rw [hru] at h
    exact Except.ok.inj h
  refine ⟨⟨t1, t2, p2.length, p1.length, ru2,
      diffSorted p2 p1, diffSorted p1 p2⟩, ?_, ?_⟩
  · unfold compare_patches
    rw [hru2]
  · rw [← hr1]

/-- C8 witness: the symmetry at two concrete one-record patch sets. -/
theorem c8_witness :
    ∃ r2 : Report, compare_patches "t1" "t2"
        [(2, ⟨some "B", ""⟩)] [(1, ⟨some "A", ""⟩)] = .ok r2 ∧
      (Report.mk "file: x" "file: y" 1 1 RUOut.silent [1] [2]).onlyFirst =
        r2.onlySecond :=
  c8_compare_symmetry "file: x" "file: y" "t1" "t2"
    [(1, ⟨some "A", ""⟩)] [(2, ⟨some "B", ""⟩)]
    ⟨"file: x", "file: y", 1, 1, RUOut.silent, [1], [2]⟩ rfl

/-- C3 counterexample: a record with an absent (None) description — which
the Format-B decoder really produces, e.g. from a header with no
description line — makes release-update extraction raise (the modelled
AttributeError) instead of reporting not-found. -/
theorem c3_counterexample :
    print_release_update [(1, ⟨none, ""⟩)] = .error () ∧
    check_release_update [(1, ⟨none, ""⟩)] [] = .error () ∧
    read_lsinventory ["Patch 1 :"] = [(1, ⟨none, ""⟩)] ∧
    print_release_update (read_lsinventory ["Patch 1 :"]) = .error () :=
  ⟨rfl, rfl, rfl, rfl⟩

/-- C3 (amended): on a Patch Set in which every record's description is
present (a string) and none begins with "Database Release Update",
extraction returns the not-found indicator without raising: the scan
yields none, and the report prints the explicit not-found line for
nonempty sets (for an empty set it returns silently). A record with an
absent description instead raises, as the counterexample shows. -/
theorem c3_amended (patches : PatchSet)
    (h : ∀ kr ∈ patches, ∃ d, kr.2.description = some d ∧
      pyStartswith d ruMarker = false) :
    findRU patches = .ok none ∧
    print_release_update patches =
      .ok (if patches.isEmpty then PrintRU.empty else PrintRU.notFound) := by
  have hf := findRU_all_miss patches h
  refine ⟨hf, ?_⟩
  by_cases he : patches.isEmpty = true
  · simp [print_release_update, he]
  · simp [print_release_update, he, hf]

/-- C3 witness: the amended theorem on a concrete one-record set whose
description does not carry the marker. -/
theorem c3_witness :
    findRU [(1, ⟨some "OJVM RELEASE UPDATE 19.21", ""⟩)] = .ok none ∧
    print_release_update [(1, ⟨some "OJVM RELEASE UPDATE 19.21", ""⟩)] =
      .ok (if ([(1, ⟨some "OJVM RELEASE UPDATE 19.21", ""⟩)] : PatchSet).isEmpty
           then PrintRU.empty else PrintRU.notFound) :=
  c3_amended [(1, ⟨some "OJVM RELEASE UPDATE 19.21", ""⟩)] (by
    intro kr hkr
    rw [List.mem_singleton] at hkr
    subst hkr
    exact ⟨"OJVM RELEASE UPDATE 19.21", rfl, by decide⟩)

/-- C2 counterexample: with a release-update record only in the second
Patch Set the cross-check prints nothing, and with none in either set
nothing is stated — contradicting the claimed report-without-warning and
explicit-absence behaviours. -/
theorem c2_counterexample :
    findRU [] = .ok none ∧
    findRU [(1, ⟨some "Database Release Update 19.21", ""⟩)] =
      .ok (some "Database Release Update 19.21") ∧
    check_release_update [] [(1, ⟨some "Database Release Update 19.21", ""⟩)] =
      .ok RUOut.silent ∧
    check_release_update [] [] = .ok RUOut.silent :=
  ⟨rfl, rfl, rfl, rfl⟩

/-- C2 (amended): if both Patch Sets contain a release-update record and
the descriptions differ, a warning listing exactly both descriptions is
emitted; otherwise, if the first set contains one (the second having none
or an identical one), its description is reported without warning; if the
first set contains none, nothing is printed at all — a record found only
in the second set is not reported, and the neither-found case is not
stated. -/
theorem c2_amended (p1 p2 : PatchSet) :
    (∀ d1 d2, findRU p1 = .ok (some d1) → findRU p2 = .ok (some d2) →
      ¬(d1 = d2) → check_release_update p1 p2 = .ok (RUOut.warning d1 d2)) ∧
    (∀ d1, findRU p1 = .ok (some d1) →
      (findRU p2 = .ok none ∨ findRU p2 = .ok (some d1)) →
      check_release_update p1 p2 = .ok (RUOut.reportFirst d1)) ∧
    (∀ r2, findRU p1 = .ok none → findRU p2 = .ok r2 →
      check_release_update p1 p2 = .ok RUOut.silent) := by
  refine ⟨?_, ?_, ?_⟩
  · intro d1 d2 h1 h2 hne
    have t1 := findRU_bne_empty h1
    have t2 := findRU_bne_empty h2
    unfold check_release_update
    rw [h1, h2]
    simp [truthyStr, t1, t2, bne_iff_ne, hne]
  · intro d1 h1 h2
    have t1 := findRU_bne_empty h1
    unfold check_release_update
    rcases h2 with h2 | h2 <;> rw [h1, h2] <;> simp [truthyStr, t1]
  · intro r2 h1 h2
    unfold check_release_update
    rw [h1, h2]
    simp [truthyStr]

/-- C2 witness: the warning case of the amended theorem on two concrete
sets with differing release-update descriptions. -/
theorem c2_witness :
    check_release_update [(5, ⟨some "Database Release Update 19.21", ""⟩)]
        [(7, ⟨some "Database Release Update 19.22", ""⟩)] =
      .ok (RUOut.warning "Database Release Update 19.21"
        "Database Release Update 19.22") :=
  (c2_amended [(5, ⟨some "Database Release Update 19.21", ""⟩)]
      [(7, ⟨some "Database Release Update 19.22", ""⟩)]).1
    "Database Release Update 19.21" "Database Release Update 19.22"
    rfl rfl (by decide)

/-- C1 counterexample: the first source parses successfully with zero
records (the line has no semicolon, so Format-A skips it), the
informational message is emitted, but the run exits with status 1 and the
comparison stage is never reached — processing does not continue. -/
theorem c1_counterexample :
    read_patchesM ["hello"] "a" = .inr [] ∧
    prepare_patches "a" "b" ["hello"] ["1;x"] false =
      .ok ([Ev.noPatchesFound "a"], 1) :=
  ⟨rfl, rfl⟩

/-- C1 (amended): when a source parses successfully but yields zero patch
records, the informational no-patches message is emitted and the empty set
reaches only the optional single-source release-update print (which returns
silently on it); `prepare_patches` then aborts the run with exit status 1,
so the empty Patch Set never reaches the comparison stage. -/
theorem c1_amended (fn1 fn2 : String) (lines1 lines2 : List String) (ru : Bool)
    (h : read_patchesM lines1 fn1 = .inr []) :
    prepare_patches fn1 fn2 lines1 lines2 ru =
      .ok ([Ev.noPatchesFound fn1] ++
        (if ru then [Ev.ruPrinted PrintRU.empty] else []), 1) := by
  have hs : read_opatch_source lines1 fn1 = .inr ([], [Ev.noPatchesFound fn1]) := by
    simp [read_opatch_source, h]
  cases ru with
  | false => simp [prepare_patches, hs]
  | true => simp [prepare_patches, hs, printRUEv, print_release_update]

/-- C1 witness: the amended theorem on a concrete semicolon-free source. -/
theorem c1_witness :
    prepare_patches "a" "b" ["hello"] ["1;x"] true =
      .ok ([Ev.noPatchesFound "a"] ++
        (if true then [Ev.ruPrinted PrintRU.empty] else []), 1) :=
  c1_amended "a" "b" ["hello"] ["1;x"] true rfl
